import Mathlib

/-!
Shallow embedding of the tool-dispatch and pending-result core of the
`codex` repository (Rust sources under `src/codex-rs/`).

Modules embedded:
* `core/src/pending_tools.rs`   — the pending-tool registry (rendezvous table)
* `core/src/rollout/edit.rs`    — the rollout-edit procedure
* `core/src/tools/router.rs`    — tool-call classification, dispatch outcome
                                  handling and hook-directive application
* `core/src/tools/hooks.rs`     — the timeout-override directive
* `exec/src/pending_tool_ipc.rs`— the pending-result IPC connection handler

Serde JSON parsing/serialisation is not re-implemented: functions that in Rust
call `serde_json` take the parse/serialise functions as explicit parameters,
so all theorems are quantified over them.  the Tokio oneshot channel is
modelled as a store of single write-once slots indexed by a fresh counter.
-/

namespace Codex

/-- A JSON value, standing in for `serde_json::Value`.  Numbers are `Nat`
because the only number the embedded code ever writes is a `u64` timeout. -/
inductive Json where
  | null : Json
  | bool (b : Bool) : Json
  | num (n : Nat) : Json
  | str (s : String) : Json
  | arr (items : List Json) : Json
  | obj (fields : List (String × Json)) : Json

/-- Model of `codex_protocol::models::FunctionCallOutputPayload`. -/
structure FunctionCallOutputPayload where
  content : String
  content_items : Option (List Json)
  success : Option Bool

/-! ## Pending-tool registry (`core/src/pending_tools.rs`) -/

/-- Model of `PendingToolMetadata` from `pending_tools.rs`. -/
structure PendingToolMetadata where
  call_id : String
  tool_name : String
  turn_id : String
  note : Option String
deriving DecidableEq

/-- Model of `PendingToolEntry` from `pending_tools.rs`.  The two `Option Nat` fields
mirror `Option<oneshot::Receiver<_>>` / `Option<oneshot::Sender<_>>`: both
halves carry the id of the one-shot channel created at registration, and a
taken half is `none`. -/
structure PendingToolEntry where
  metadata : PendingToolMetadata
  receiver : Option Nat
  sender : Option Nat
deriving DecidableEq

/-- Association-list lookup, modelling `HashMap::get`. -/
def lookupE {α : Type} : List (String × α) → String → Option α
  | [], _ => none
  | (k, v) :: rest, key => if k = key then some v else lookupE rest key

/-- Remove a key, modelling `HashMap::remove`. -/
def eraseKey {α : Type} (key : String) : List (String × α) → List (String × α)
  | [] => []
  | (k, v) :: rest => if k = key then eraseKey key rest else (k, v) :: eraseKey key rest

/-- Insert/overwrite a key, modelling `HashMap::insert`. -/
def insertE {α : Type} (key : String) (v : α) (l : List (String × α)) :
    List (String × α) :=
  (key, v) :: eraseKey key l

/-- State of `PendingToolManager`: the entry map, plus the store of one-shot
channel slots (`channels ch = some p` once a payload was sent on channel
`ch`) and a fresh-channel counter. -/
structure ManagerState where
  entries : List (String × PendingToolEntry)
  channels : Nat → Option FunctionCallOutputPayload
  nextChan : Nat

/-- Model of `PendingToolManager::new`. -/
def ManagerState.init : ManagerState :=
  { entries := [], channels := fun _ => none, nextChan := 0 }

/-- Model of `PendingToolManager::register`: build the metadata, create a fresh
one-shot channel and insert the entry (replacing any previous entry with the
same `call_id`). -/
def register (s : ManagerState) (call_id tool_name turn_id : String)
    (note : Option String) : ManagerState × PendingToolMetadata :=
  let metadata : PendingToolMetadata :=
    { call_id := call_id, tool_name := tool_name, turn_id := turn_id, note := note }
  let ch := s.nextChan
  ({ entries := insertE call_id
        { metadata := metadata, receiver := some ch, sender := some ch } s.entries,
     channels := fun n => if n = ch then none else s.channels n,
     nextChan := ch + 1 }, metadata)

/-- Model of `PendingToolManager::take_receiver`: remove the receiver half if present;
remove the whole entry when the sender half has already been taken.  Returns
the metadata and the channel id the receiver reads from. -/
def take_receiver (s : ManagerState) (call_id : String) :
    ManagerState × Option (PendingToolMetadata × Nat) :=
  match lookupE s.entries call_id with
  | none => (s, none)
  | some entry =>
    match entry.receiver with
    | none => (s, none)
    | some ch =>
      let entry' : PendingToolEntry := { entry with receiver := none }
      let entries' :=
        if entry'.sender.isNone then eraseKey call_id s.entries
        else insertE call_id entry' s.entries
      ({ s with entries := entries' }, some (entry.metadata, ch))

/-- A successful `oneshot::Sender::send`: record the payload in the channel
slot. -/
def send (s : ManagerState) (ch : Nat) (payload : FunctionCallOutputPayload) :
    ManagerState :=
  { s with channels := fun n => if n = ch then some payload else s.channels n }

/-- Model of `PendingToolManager::resolve`: take the sender half if present and send
the payload on it; remove the entry when the receiver half has already been
taken.  Returns the metadata whenever the entry existed. -/
def resolve (s : ManagerState) (call_id : String)
    (payload : FunctionCallOutputPayload) :
    ManagerState × Option PendingToolMetadata :=
  match lookupE s.entries call_id with
  | none => (s, none)
  | some entry =>
    let s' := match entry.sender with
      | some ch => send s ch payload
      | none => s
    let entry' : PendingToolEntry := { entry with sender := none }
    let entries' :=
      if entry'.receiver.isNone then eraseKey call_id s'.entries
      else insertE call_id entry' s'.entries
    ({ s' with entries := entries' }, some entry.metadata)

/-- Model of `PendingToolManager::cancel`: remove the entry outright, returning its
metadata. -/
def cancel (s : ManagerState) (call_id : String) :
    ManagerState × Option PendingToolMetadata :=
  match lookupE s.entries call_id with
  | none => (s, none)
  | some entry => ({ s with entries := eraseKey call_id s.entries }, some entry.metadata)

/-- What a receiver taken from channel `ch` observes: `oneshot::Receiver`
yields the payload sent on the channel, if any. -/
def observe (s : ManagerState) (ch : Nat) : Option FunctionCallOutputPayload :=
  s.channels ch

/-! ## Tool router (`core/src/tools/router.rs`, `core/src/tools/hooks.rs`) -/

/-- Model of `crate::sandboxing::SandboxPermissions`; only the variant the router uses
is relevant here. -/
inductive SandboxPermissions where
  | UseDefault : SandboxPermissions
deriving DecidableEq

/-- Model of `codex_protocol::models::LocalShellExecAction` (the fields the router
reads). -/
structure LocalShellExecAction where
  command : List String
  working_directory : Option String
  timeout_ms : Option Nat
deriving DecidableEq

/-- Model of `codex_protocol::models::LocalShellAction`. -/
inductive LocalShellAction where
  | Exec (exec : LocalShellExecAction) : LocalShellAction
deriving DecidableEq

/-- Model of `codex_protocol::models::ShellToolCallParams`. -/
structure ShellToolCallParams where
  command : List String
  workdir : Option String
  timeout_ms : Option Nat
  sandbox_permissions : Option SandboxPermissions
  justification : Option String
deriving DecidableEq

/-- Model of `crate::tools::context::ToolPayload`. -/
inductive ToolPayload where
  | Function (arguments : String) : ToolPayload
  | Custom (input : String) : ToolPayload
  | LocalShell (params : ShellToolCallParams) : ToolPayload
  | Mcp (server tool raw_arguments : String) : ToolPayload
deriving DecidableEq

/-- Model of `ToolCall` from `router.rs`. -/
structure ToolCall where
  tool_name : String
  call_id : String
  payload : ToolPayload
deriving DecidableEq

/-- The model-emitted `codex_protocol::models::ResponseItem` variants the
router and the rollout edit inspect; all remaining variants are collapsed
into `Other`. -/
inductive ResponseItem where
  | FunctionCall (name arguments call_id : String) : ResponseItem
  | CustomToolCall (name input call_id : String) : ResponseItem
  | LocalShellCall (id call_id : Option String) (action : LocalShellAction) :
      ResponseItem
  | FunctionCallOutput (call_id : String) (output : FunctionCallOutputPayload) :
      ResponseItem
  | CustomToolCallOutput (call_id : String) (output : String) : ResponseItem
  | Other : ResponseItem

/-- Model of `crate::function_tool::FunctionCallError` (variants used by the embedded
code). -/
inductive FunctionCallError where
  | Fatal (message : String) : FunctionCallError
  | RespondToModel (message : String) : FunctionCallError
  | MissingLocalShellCallId : FunctionCallError
deriving DecidableEq

/-- Model of `Display` for `FunctionCallError` (`err.to_string()`); `function_tool.rs`
is not under `src/`, and the theorems only compare outputs against this
function, never against literal text. -/
def FunctionCallError.toMessage : FunctionCallError → String
  | .Fatal message => message
  | .RespondToModel message => message
  | .MissingLocalShellCallId => "LocalShellCall without call_id or id"

/-- Model of `codex_protocol::models::ResponseInputItem` (variants the dispatcher
produces; the rest are collapsed into `Other`). -/
inductive ResponseInputItem where
  | FunctionCallOutput (call_id : String) (output : FunctionCallOutputPayload) :
      ResponseInputItem
  | CustomToolCallOutput (call_id : String) (output : String) : ResponseInputItem
  | Other : ResponseInputItem

/-- Model of `ToolRouter::build_tool_call`.  `parse_mcp_tool_name` stands for
`session.parse_mcp_tool_name`, the only piece of session state consulted. -/
def build_tool_call (parse_mcp_tool_name : String → Option (String × String))
    (item : ResponseItem) : Except FunctionCallError (Option ToolCall) :=
  match item with
  | .FunctionCall name arguments call_id =>
    match parse_mcp_tool_name name with
    | some (server, tool) =>
      .ok (some { tool_name := name, call_id := call_id,
                  payload := .Mcp server tool arguments })
    | none =>
      .ok (some { tool_name := name, call_id := call_id,
                  payload := .Function arguments })
  | .CustomToolCall name input call_id =>
    .ok (some { tool_name := name, call_id := call_id, payload := .Custom input })
  | .LocalShellCall id call_id action =>
    match call_id.or id with
    | none => .error .MissingLocalShellCallId
    | some call_id =>
      match action with
      | .Exec exec =>
        .ok (some { tool_name := "local_shell", call_id := call_id,
                    payload := .LocalShell {
                      command := exec.command,
                      workdir := exec.working_directory,
                      timeout_ms := exec.timeout_ms,
                      sandbox_permissions := some .UseDefault,
                      justification := none } })
  | _ => .ok none

/-- Model of `ToolHookTimeoutOverride` from `hooks.rs` (untagged: a number or a
keyword string). -/
inductive ToolHookTimeoutOverride where
  | Millis (ms : Nat) : ToolHookTimeoutOverride
  | Keyword (keyword : String) : ToolHookTimeoutOverride
deriving DecidableEq

/-- Model of `TimeoutBehavior` from `hooks.rs`. -/
inductive TimeoutBehavior where
  | Millis (ms : Nat) : TimeoutBehavior
  | Infinite : TimeoutBehavior
deriving DecidableEq

/-- Model of `ToolHookTimeoutOverride::behavior`.  `String.toLower` lowercases exactly
the ASCII letters, as `to_ascii_lowercase` does. -/
def ToolHookTimeoutOverride.behavior :
    ToolHookTimeoutOverride → Option TimeoutBehavior
  | .Millis ms => some (.Millis ms)
  | .Keyword keyword =>
    let normalized := keyword.trim.toLower
    if normalized = "infinite" ∨ normalized = "no_timeout" ∨
        normalized = "none" ∨ normalized = "unlimited" then
      some .Infinite
    else
      none

/-- Model of `HookLocalShellDirective` from `hooks.rs`. -/
structure HookLocalShellDirective where
  timeout_ms : Option ToolHookTimeoutOverride
deriving DecidableEq

/-- Model of `HookLocalShellDirective::timeout_behavior`. -/
def HookLocalShellDirective.timeout_behavior (d : HookLocalShellDirective) :
    Option TimeoutBehavior :=
  d.timeout_ms.bind ToolHookTimeoutOverride.behavior

/-- Model of `ToolHookDirective` from `hooks.rs`. -/
structure ToolHookDirective where
  local_shell : Option HookLocalShellDirective
deriving DecidableEq

/-- Model of `ToolRouter::apply_timeout_behavior` (returns the new value of the
mutated `Option<u64>` target). -/
def apply_timeout_behavior (behavior : TimeoutBehavior) : Option Nat :=
  match behavior with
  | .Millis ms => some ms
  | .Infinite => some 0

/-- Model of `serde_json::Map::insert`: overwrite the value in place when the key is
present, append otherwise. -/
def insertKey (fields : List (String × Json)) (key : String) (v : Json) :
    List (String × Json) :=
  match fields with
  | [] => [(key, v)]
  | (k, w) :: rest =>
    if k = key then (k, v) :: rest else (k, w) :: insertKey rest key v

/-- Model of `ToolRouter::apply_tool_hook_directive`.  `json_parse` and
`json_to_string` stand for `serde_json::from_str::<Value>` and
`serde_json::to_string` (the latter is total on values). -/
def apply_tool_hook_directive
    (json_parse : String → Option Json) (json_to_string : Json → String)
    (call : ToolCall) (directive : ToolHookDirective) : ToolCall :=
  match directive.local_shell with
  | none => call
  | some local_shell =>
    match local_shell.timeout_behavior with
    | none => call
    | some behavior =>
      match call.payload with
      | .LocalShell params =>
        let params' : ShellToolCallParams :=
          { params with timeout_ms := apply_timeout_behavior behavior }
        { call with payload := ToolPayload.LocalShell params' }
      | .Function arguments =>
        if call.tool_name = "shell_command" then
          match json_parse arguments with
          | some (Json.obj fields) =>
            let value := match behavior with
              | .Millis ms => Json.num ms
              | .Infinite => Json.num 0
            { call with payload :=
                .Function (json_to_string
                  (Json.obj (insertKey fields "timeout_ms" value))) }
          | _ => call
        else call
      | _ => call

/-- Whether the payload produces a `CustomToolCallOutput`
(`matches!(payload, ToolPayload::Custom { .. })`). -/
def ToolPayload.outputs_custom : ToolPayload → Bool
  | .Custom _ => true
  | _ => false

/-- Model of `ToolRouter::failure_response`.  `FunctionCallOutputPayload::default()`
has `content_items = None`. -/
def failure_response (call_id : String) (payload_outputs_custom : Bool)
    (err : FunctionCallError) : ResponseInputItem :=
  let message := err.toMessage
  if payload_outputs_custom then
    .CustomToolCallOutput call_id message
  else
    .FunctionCallOutput call_id
      { content := message, content_items := none, success := some false }

/-- Model of `ToolRouter::dispatch_tool_call`: directive application followed by
handler invocation and outcome handling.  The hook subprocess events are
side effects outside the model; the directive the `before_execution` hook
produced is the `directive` argument, and `handler` is
`self.registry.dispatch`. -/
def dispatch_tool_call
    (json_parse : String → Option Json) (json_to_string : Json → String)
    (directive : Option ToolHookDirective)
    (handler : ToolCall → Except FunctionCallError ResponseInputItem)
    (call : ToolCall) : Except FunctionCallError ResponseInputItem :=
  let call := match directive with
    | some d => apply_tool_hook_directive json_parse json_to_string call d
    | none => call
  let payload_outputs_custom := call.payload.outputs_custom
  let failure_call_id := call.call_id
  match handler call with
  | .ok response => .ok response
  | .error (.Fatal message) => .error (.Fatal message)
  | .error err => .ok (failure_response failure_call_id payload_outputs_custom err)


/-! ## Rollout edit (`core/src/rollout/edit.rs`) -/

/-- Model of `ToolResultKind` from `edit.rs`. -/
inductive ToolResultKind where
  | Function : ToolResultKind
  | Custom : ToolResultKind
deriving DecidableEq

/-- Model of `PatchedToolCall` from `edit.rs`. -/
structure PatchedToolCall where
  call_id : String
  kind : ToolResultKind
deriving DecidableEq

/-- Model of `codex_protocol::protocol::RolloutItem`: a `ResponseItem` or any of the
other record kinds (session meta, compacted, …), collapsed into `Other`. -/
inductive RolloutItem where
  | responseItem (item : ResponseItem) : RolloutItem
  | Other : RolloutItem

/-- Model of `codex_protocol::protocol::RolloutLine`. -/
structure RolloutLine where
  timestamp : String
  item : RolloutItem

/-- Rust `raw.trim().is_empty()`: true iff every character is whitespace
(`String.trim` removes exactly the whitespace characters; it is stated via
`data` so that concrete instances evaluate). -/
def isBlank (raw : String) : Bool :=
  raw.data.all Char.isWhitespace

/-- Model of `overwrite_function_output` from `edit.rs`. -/
def overwrite_function_output (output : FunctionCallOutputPayload)
    (new_output : String) : FunctionCallOutputPayload :=
  { output with content := new_output, content_items := none }

/-- The parse loop of `replace_last_tool_result`: skip blank lines, parse
each remaining line (`parse` stands for
`serde_json::from_str::<RolloutLine>`), failing on the first line that does
not parse with that line embedded in the error. -/
def parseRolloutLines (parse : String → Option RolloutLine) :
    List String → Except String (List RolloutLine)
  | [] => .ok []
  | raw :: rest =>
    if isBlank raw then parseRolloutLines parse rest
    else
      match parse raw with
      | none =>
        .error ("failed to parse rollout line as JSON; offending line: " ++ raw)
      | some line =>
        match parseRolloutLines parse rest with
        | .error e => .error e
        | .ok lines => .ok (line :: lines)

/-- The reverse scan of `replace_last_tool_result`: patch the **last**
`FunctionCallOutput`/`CustomToolCallOutput` response item (a recursive
formulation of `lines.iter_mut().rev()` with `break` on the first match),
returning the patched list and the `PatchedToolCall` record. -/
def patchLastToolOutput (new_output : String) :
    List RolloutLine → Option (List RolloutLine × PatchedToolCall)
  | [] => none
  | line :: rest =>
    match patchLastToolOutput new_output rest with
    | some (rest', patched) => some (line :: rest', patched)
    | none =>
      match line with
      | ⟨ts, .responseItem (.FunctionCallOutput call_id output)⟩ =>
        some (⟨ts, .responseItem (.FunctionCallOutput call_id
            (overwrite_function_output output new_output))⟩ :: rest,
          ⟨call_id, .Function⟩)
      | ⟨ts, .responseItem (.CustomToolCallOutput call_id _)⟩ =>
        some (⟨ts, .responseItem (.CustomToolCallOutput call_id new_output)⟩ :: rest,
          ⟨call_id, .Custom⟩)
      | _ => none

/-- Model of `replace_last_tool_result`: the file is its list of physical lines; the
first component of the result is the file contents after the call (the Rust
function writes the re-serialized lines, one per line, only on success and
leaves the file untouched on every error path), the second mirrors the
`io::Result<PatchedToolCall>`.  `ser` stands for `serde_json::to_string`. -/
def replace_last_tool_result (parse : String → Option RolloutLine)
    (ser : RolloutLine → String) (fileLines : List String)
    (new_output : String) : List String × Except String PatchedToolCall :=
  if fileLines.all (fun raw => isBlank raw) then
    (fileLines, .error "rollout file is empty")
  else
    match parseRolloutLines parse fileLines with
    | .error e => (fileLines, .error e)
    | .ok lines =>
      match patchLastToolOutput new_output lines with
      | none =>
        (fileLines, .error "no tool call output found in rollout; nothing to replace")
      | some (lines', patched) => (lines'.map ser, .ok patched)

/-- Specification-side predicate: is this rollout line a tool call output
(what the spec calls a FunctionCallOutput or CustomToolCallOutput item)? -/
def isToolOutput : RolloutLine → Bool
  | ⟨_, .responseItem (.FunctionCallOutput _ _)⟩ => true
  | ⟨_, .responseItem (.CustomToolCallOutput _ _)⟩ => true
  | _ => false

/-- Specification-side patch rule, following the words of the spec: a function output
gets `content = new_output`, `content_items = None`, `success` untouched; a
custom output gets `output = new_output`; anything else is unchanged. -/
def patchApply (new_output : String) : RolloutLine → RolloutLine
  | ⟨ts, .responseItem (.FunctionCallOutput call_id output)⟩ =>
    ⟨ts, .responseItem (.FunctionCallOutput call_id
      { output with content := new_output, content_items := none })⟩
  | ⟨ts, .responseItem (.CustomToolCallOutput call_id _)⟩ =>
    ⟨ts, .responseItem (.CustomToolCallOutput call_id new_output)⟩
  | line => line

/-- Specification-side record of a tool output line: its `call_id` and
kind. -/
def toolOutputInfo : RolloutLine → Option PatchedToolCall
  | ⟨_, .responseItem (.FunctionCallOutput call_id _)⟩ =>
    some ⟨call_id, .Function⟩
  | ⟨_, .responseItem (.CustomToolCallOutput call_id _)⟩ =>
    some ⟨call_id, .Custom⟩
  | _ => none

/-- The rollout lines a fully-parsing file denotes: parse every non-blank
line. -/
def parsedOf (parse : String → Option RolloutLine) (fileLines : List String) :
    List RolloutLine :=
  (fileLines.filter fun raw => !isBlank raw).filterMap parse

/-! ## Pending-result IPC (`exec/src/pending_tool_ipc.rs`) -/

/-- Model of `codex_core::protocol::Op` (the variant the IPC server submits). -/
inductive Op where
  | DeliverPendingToolResult (call_id : String)
      (output : FunctionCallOutputPayload) : Op

/-- Model of `DeliverPendingRequest` from `pending_tool_ipc.rs`. -/
structure DeliverPendingRequest where
  call_id : String
  output : FunctionCallOutputPayload

/-- Observable effects of one `handle_connection` run: the operations
submitted to the conversation, the bytes written back to the stream, and
whether the function returned an error (which the accept loop only logs). -/
structure ConnectionResult where
  submitted : List Op
  written : Option String
  failed : Bool

/-- Model of `handle_connection`: `body` is the request read to EOF; an empty body
closes silently, otherwise the body is parsed (`parse_request` stands for
`serde_json::from_slice::<DeliverPendingRequest>`; failure propagates as an
error with nothing submitted or written), the `Op` is submitted and the
literal bytes `ok` are written back. -/
def handle_connection (parse_request : String → Option DeliverPendingRequest)
    (body : String) : ConnectionResult :=
  if body.data.isEmpty then
    { submitted := [], written := none, failed := false }
  else
    match parse_request body with
    | none => { submitted := [], written := none, failed := true }
    | some request =>
      { submitted := [Op.DeliverPendingToolResult request.call_id request.output],
        written := some "ok", failed := false }

/-! Concrete parse/serialise fixtures used to evaluate the theorems on
explicit inputs. -/

/-- A two-line rollout: a session-meta line and one function call output. -/
def sampleRolloutParse : String → Option RolloutLine := fun raw =>
  if raw = "meta" then some ⟨"t0", RolloutItem.Other⟩
  else if raw = "func" then
    some ⟨"t1", .responseItem (.FunctionCallOutput "call_func"
      ⟨"pending", none, some false⟩)⟩
  else none

/-- A serializer distinguishing the patched line from the rest. -/
def sampleRolloutSer : RolloutLine → String := fun line =>
  match line with
  | ⟨_, RolloutItem.Other⟩ => "SER_OTHER"
  | ⟨_, .responseItem (.FunctionCallOutput _ output)⟩ => output.content
  | ⟨_, .responseItem _⟩ => "SER_ITEM"

/-- A request parser recognising one body. -/
def samplePendingParse : String → Option DeliverPendingRequest := fun body =>
  if body = "req" then some ⟨"call-1", ⟨"done", none, some true⟩⟩ else none

lemma lookupE_eraseKey_self {α : Type} (key : String) (l : List (String × α)) :
    lookupE (eraseKey key l) key = none := by
  induction l with
  | nil => simp [eraseKey, lookupE]
  | cons hd tl ih =>
    obtain ⟨k, v⟩ := hd
    by_cases h : k = key
    · simpa [eraseKey, h] using ih
    · simp [eraseKey, h, lookupE, ih]

lemma apply_tool_hook_directive_call_id (jp : String → Option Json)
    (js : Json → String) (call : ToolCall) (d : ToolHookDirective) :
    (apply_tool_hook_directive jp js call d).call_id = call.call_id := by
  unfold apply_tool_hook_directive
  repeat' split
  all_goals rfl

lemma apply_tool_hook_directive_outputs_custom (jp : String → Option Json)
    (js : Json → String) (call : ToolCall) (d : ToolHookDirective) :
    (apply_tool_hook_directive jp js call d).payload.outputs_custom =
      call.payload.outputs_custom := by
  unfold apply_tool_hook_directive
  repeat' split
  all_goals simp_all [ToolPayload.outputs_custom]

lemma filterMap_length_of_isSome {α β : Type} (f : α → Option β)
    (l : List α) (h : ∀ a ∈ l, (f a).isSome) :
    (l.filterMap f).length = l.length := by
  induction l with
  | nil => simp
  | cons a tl ih =>
    rcases ho : f a with _ | b
    · exact absurd (h a (by simp)) (by simp [ho])
    · simp [List.filterMap_cons, ho,
        ih fun x hx => h x (List.mem_cons_of_mem _ hx)]

lemma parseRolloutLines_ok_of_parses (parse : String → Option RolloutLine)
    (ls : List String)
    (h : ∀ raw ∈ ls, isBlank raw = false → (parse raw).isSome) :
    parseRolloutLines parse ls = .ok (parsedOf parse ls) := by
  induction ls with
  | nil => simp [parseRolloutLines, parsedOf]
  | cons raw rest ih =>
    have ihr := ih fun x hx hb => h x (List.mem_cons_of_mem _ hx) hb
    by_cases hb : isBlank raw
    · simpa [parseRolloutLines, parsedOf, hb] using ihr
    · have hs := h raw (by simp) (by simpa using hb)
      rcases ho : parse raw with _ | line
      · simp [ho] at hs
      · simp [parseRolloutLines, parsedOf, hb, ho] at ihr ⊢
        simp [ihr]

lemma parseRolloutLines_error (parse : String → Option RolloutLine)
    (ls : List String) :
    ∀ e, parseRolloutLines parse ls = .error e →
    ∃ raw ∈ ls, isBlank raw = false ∧ parse raw = none ∧
      e = "failed to parse rollout line as JSON; offending line: " ++ raw := by
  induction ls with
  | nil => intro e h; simp [parseRolloutLines] at h
  | cons raw rest ih =>
    intro e h
    by_cases hb : isBlank raw
    · obtain ⟨r, hr, h1, h2, h3⟩ :=
        ih e (by simpa [parseRolloutLines, hb] using h)
      exact ⟨r, List.mem_cons_of_mem _ hr, h1, h2, h3⟩
    · rcases ho : parse raw with _ | line
      · refine ⟨raw, by simp, by simpa using hb, ho, ?_⟩
        have := h
        simp [parseRolloutLines, hb, ho] at this
        exact this.symm
      · rcases hrec : parseRolloutLines parse rest with e' | lines
        · obtain ⟨r, hr, h1, h2, h3⟩ := ih e' hrec
          have he : e = e' := by
            have := h
            simp [parseRolloutLines, hb, ho, hrec] at this
            exact this.symm
          exact ⟨r, List.mem_cons_of_mem _ hr, h1, h2, he ▸ h3⟩
        · simp [parseRolloutLines, hb, ho, hrec] at h

lemma parseRolloutLines_ok_parses (parse : String → Option RolloutLine)
    (ls : List String) :
    ∀ lines, parseRolloutLines parse ls = .ok lines →
      ∀ raw ∈ ls, isBlank raw = false → (parse raw).isSome := by
  induction ls with
  | nil => intro lines h raw hr; simp at hr
  | cons raw0 rest ih =>
    intro lines h raw hr hb
    by_cases hb0 : isBlank raw0
    · rcases List.mem_cons.mp hr with rfl | hr'
      · simp [hb0] at hb
      · exact ih lines (by simpa [parseRolloutLines, hb0] using h) raw hr' hb
    · rcases ho : parse raw0 with _ | line
      · simp [parseRolloutLines, hb0, ho] at h
      · rcases hrec : parseRolloutLines parse rest with e' | lines'
        · simp [parseRolloutLines, hb0, ho, hrec] at h
        · rcases List.mem_cons.mp hr with rfl | hr'
          · simp [ho]
          · exact ih lines' hrec raw hr' hb

lemma patchLastToolOutput_none_iff (new_output : String) :
    ∀ ls : List RolloutLine,
      patchLastToolOutput new_output ls = none ↔
        ∀ l ∈ ls, isToolOutput l = false := by
  intro ls
  induction ls with
  | nil => simp [patchLastToolOutput]
  | cons line rest ih =>
    rcases hrec : patchLastToolOutput new_output rest with _ | pr
    · have hall : ∀ l ∈ rest, isToolOutput l = false := ih.mp hrec
      rcases line with ⟨ts, item⟩
      rcases item with item | _
      · rcases item with ⟨n, a, c⟩ | ⟨n, i, c⟩ | ⟨i, c, a⟩ | ⟨cid, out⟩ |
          ⟨cid, out⟩ | _ <;>
          simp_all [patchLastToolOutput, isToolOutput]
      · simp_all [patchLastToolOutput, isToolOutput]
    · constructor
      · intro h
        simp [patchLastToolOutput, hrec] at h
      · intro hall
        have hn : patchLastToolOutput new_output rest = none :=
          ih.mpr fun l hl => hall l (List.mem_cons_of_mem _ hl)
        rw [hn] at hrec
        cases hrec

lemma patchLastToolOutput_some (new_output : String) :
    ∀ (ls ls' : List RolloutLine) (pc : PatchedToolCall),
      patchLastToolOutput new_output ls = some (ls', pc) →
      ∃ pre l suf, ls = pre ++ l :: suf ∧ isToolOutput l = true ∧
        (∀ l' ∈ suf, isToolOutput l' = false) ∧
        ls' = pre ++ patchApply new_output l :: suf ∧
        toolOutputInfo l = some pc := by
  intro ls
  induction ls with
  | nil => intro ls' pc h; simp [patchLastToolOutput] at h
  | cons line rest ih =>
    intro ls' pc h
    rcases hrec : patchLastToolOutput new_output rest with _ | pr
    · have hall : ∀ l ∈ rest, isToolOutput l = false :=
        (patchLastToolOutput_none_iff new_output rest).mp hrec
      rcases line with ⟨ts, item⟩
      rcases item with item | _
      · rcases item with ⟨n, a, c⟩ | ⟨n, i, c⟩ | ⟨i, c, a⟩ | ⟨cid, out⟩ |
          ⟨cid, out⟩ | _
        · simp [patchLastToolOutput, hrec] at h
        · simp [patchLastToolOutput, hrec] at h
        · simp [patchLastToolOutput, hrec] at h
        · refine ⟨[], ⟨ts, .responseItem (.FunctionCallOutput cid out)⟩, rest,
            by simp, by simp [isToolOutput], hall, ?_, ?_⟩ <;>
          · simp [patchLastToolOutput, hrec, overwrite_function_output] at h
            simp [← h.1, ← h.2, patchApply, toolOutputInfo]
        · refine ⟨[], ⟨ts, .responseItem (.CustomToolCallOutput cid out)⟩, rest,
            by simp, by simp [isToolOutput], hall, ?_, ?_⟩ <;>
          · simp [patchLastToolOutput, hrec] at h
            simp [← h.1, ← h.2, patchApply, toolOutputInfo]
        · simp [patchLastToolOutput, hrec] at h
      · simp [patchLastToolOutput, hrec] at h
    · rcases pr with ⟨rest', patched⟩
      have hh : line :: rest' = ls' ∧ patched = pc := by
        simpa [patchLastToolOutput, hrec] using h
      obtain ⟨pre, l, suf, hdec, hto, hsuf, hrest', hinfo⟩ :=
        ih rest' patched hrec
      refine ⟨line :: pre, l, suf, by simp [hdec], hto, hsuf, ?_, ?_⟩
      · simp [← hh.1, hrest']
      · rw [← hh.2]; exact hinfo

/-- C1: after `register(call_id, …)`, one `take_receiver(call_id)` and one
`resolve(call_id, p)` in either order deliver exactly `p` to the receiver,
both return the registration metadata, the entry is gone once both halves
are taken, and a subsequent `cancel(call_id)` returns `none`. -/
theorem pending_rendezvous_both_orders (s : ManagerState)
    (cid tool turn : String) (note : Option String)
    (p : FunctionCallOutputPayload) :
    (let r0 := register s cid tool turn note
     let r1 := resolve r0.1 cid p
     let r2 := take_receiver r1.1 cid
     r1.2 = some r0.2 ∧
     (∃ ch, r2.2 = some (r0.2, ch) ∧ observe r2.1 ch = some p) ∧
     lookupE r2.1.entries cid = none ∧
     (cancel r2.1 cid).2 = none)
    ∧
    (let r0 := register s cid tool turn note
     let r1 := take_receiver r0.1 cid
     let r2 := resolve r1.1 cid p
     (∃ ch, r1.2 = some (r0.2, ch) ∧ observe r2.1 ch = some p) ∧
     r2.2 = some r0.2 ∧
     lookupE r2.1.entries cid = none ∧
     (cancel r2.1 cid).2 = none) := by
  refine ⟨⟨?_, ⟨s.nextChan, ?_, ?_⟩, ?_, ?_⟩, ⟨s.nextChan, ?_, ?_⟩, ?_, ?_, ?_⟩ <;>
    simp [register, resolve, take_receiver, cancel, observe, send, insertE,
      lookupE, eraseKey, lookupE_eraseKey_self]

/-- C8: `cancel(call_id)` on a registered id returns the registration
metadata without delivering a payload, and afterwards `resolve` and
`take_receiver` for that id return `none` and leave the state unchanged. -/
theorem cancel_removes_without_delivering (s : ManagerState)
    (cid tool turn : String) (note : Option String)
    (p : FunctionCallOutputPayload) :
    let r0 := register s cid tool turn note
    let rc := cancel r0.1 cid
    rc.2 = some r0.2 ∧
    observe rc.1 s.nextChan = none ∧
    (resolve rc.1 cid p).2 = none ∧ (resolve rc.1 cid p).1 = rc.1 ∧
    (take_receiver rc.1 cid).2 = none ∧ (take_receiver rc.1 cid).1 = rc.1 := by
  refine ⟨?_, ?_, ?_, ?_, ?_, ?_⟩ <;>
    simp [register, resolve, take_receiver, cancel, observe, send, insertE,
      lookupE, eraseKey, lookupE_eraseKey_self]

/-- C10: two `resolve` calls before the receiver is taken both return the
registration metadata, but only the first payload is delivered: the channel
still holds `p1` after the second call and a later `take_receiver` observes
`p1`. -/
theorem resolve_twice_first_payload_wins (s : ManagerState)
    (cid tool turn : String) (note : Option String)
    (p1 p2 : FunctionCallOutputPayload) :
    let r0 := register s cid tool turn note
    let r1 := resolve r0.1 cid p1
    let r2 := resolve r1.1 cid p2
    let r3 := take_receiver r2.1 cid
    r1.2 = some r0.2 ∧ r2.2 = some r0.2 ∧
    r2.1.channels = r1.1.channels ∧
    (∃ ch, r3.2 = some (r0.2, ch) ∧ observe r3.1 ch = some p1) := by
  refine ⟨?_, ?_, ?_, s.nextChan, ?_, ?_⟩ <;>
    simp [register, resolve, take_receiver, observe, send, insertE,
      lookupE, eraseKey, lookupE_eraseKey_self]

/-- C3: `build_tool_call` classifies a `FunctionCall` as `Mcp` exactly when
the name matches a registered MCP tool prefix and as `Function` otherwise, a
`CustomToolCall` as `Custom`, a `LocalShellCall` via `call_id` with fallback
to `id` (failing with `MissingLocalShellCallId` when both are absent) into a
`LocalShell` payload with the default sandbox permissions, and yields
`Ok(None)` on every other item kind. -/
theorem build_tool_call_classification
    (pm : String → Option (String × String))
    (name arguments input cid server tool outs : String)
    (idv : Option String) (exec : LocalShellExecAction)
    (out : FunctionCallOutputPayload) :
    (pm name = some (server, tool) →
      build_tool_call pm (.FunctionCall name arguments cid) =
        .ok (some ⟨name, cid, .Mcp server tool arguments⟩)) ∧
    (pm name = none →
      build_tool_call pm (.FunctionCall name arguments cid) =
        .ok (some ⟨name, cid, .Function arguments⟩)) ∧
    build_tool_call pm (.CustomToolCall name input cid) =
      .ok (some ⟨name, cid, .Custom input⟩) ∧
    build_tool_call pm (.LocalShellCall idv (some cid) (.Exec exec)) =
      .ok (some ⟨"local_shell", cid, .LocalShell
        ⟨exec.command, exec.working_directory, exec.timeout_ms,
          some .UseDefault, none⟩⟩) ∧
    build_tool_call pm (.LocalShellCall (some cid) none (.Exec exec)) =
      .ok (some ⟨"local_shell", cid, .LocalShell
        ⟨exec.command, exec.working_directory, exec.timeout_ms,
          some .UseDefault, none⟩⟩) ∧
    build_tool_call pm (.LocalShellCall none none (.Exec exec)) =
      .error .MissingLocalShellCallId ∧
    build_tool_call pm (.FunctionCallOutput cid out) = .ok none ∧
    build_tool_call pm (.CustomToolCallOutput cid outs) = .ok none ∧
    build_tool_call pm .Other = .ok none := by
  refine ⟨fun h => ?_, fun h => ?_, ?_, ?_, ?_, ?_, ?_, ?_, ?_⟩ <;>
    simp [build_tool_call, Option.or] <;> simp [h]

theorem build_tool_call_classification_witness :
    (fun n => if n = "srv__add" then some ("srv", "add") else none) "srv__add"
        = some (("srv", "add") : String × String) ∧
    build_tool_call (fun n => if n = "srv__add" then some ("srv", "add") else none)
        (.FunctionCall "srv__add" "args" "c1") =
      .ok (some ⟨"srv__add", "c1", .Mcp "srv" "add" "args"⟩) :=
  ⟨rfl, (build_tool_call_classification
      (fun n => if n = "srv__add" then some ("srv", "add") else none)
      "srv__add" "args" "" "c1" "srv" "add" "" none ⟨[], none, none⟩
      ⟨"", none, none⟩).1 rfl⟩

/-- C5: the hook timeout directive maps the keywords `infinite`,
`no_timeout`, `none`, `unlimited` (trimmed, case-folded) to `Infinite` and a
number to `Millis`; applying it sets `timeout_ms` on a `LocalShell` payload
(`0` for `Infinite`), rewrites the JSON-object arguments of a `Function`
payload named `shell_command` by inserting/overwriting `timeout_ms`, leaves
the call unchanged when the arguments do not parse as an object, and leaves
every other payload/name combination unchanged. -/
theorem apply_tool_hook_directive_spec
    (jp : String → Option Json) (js : Json → String)
    (ov : ToolHookTimeoutOverride) (b : TimeoutBehavior)
    (tn cid arguments input server tool raw kw : String)
    (params : ShellToolCallParams) (fields : List (String × Json)) (ms : Nat) :
    ((kw.trim.toLower = "infinite" ∨ kw.trim.toLower = "no_timeout" ∨
        kw.trim.toLower = "none" ∨ kw.trim.toLower = "unlimited") →
      ToolHookTimeoutOverride.behavior (.Keyword kw) = some .Infinite) ∧
    ToolHookTimeoutOverride.behavior (.Millis ms) = some (.Millis ms) ∧
    apply_timeout_behavior (.Millis ms) = some ms ∧
    apply_timeout_behavior .Infinite = some 0 ∧
    (ov.behavior = some b →
      apply_tool_hook_directive jp js ⟨tn, cid, .LocalShell params⟩
          ⟨some ⟨some ov⟩⟩ =
        ⟨tn, cid, .LocalShell
          ({ params with timeout_ms := apply_timeout_behavior b })⟩) ∧
    (ov.behavior = some b → jp arguments = some (.obj fields) →
      apply_tool_hook_directive jp js ⟨"shell_command", cid, .Function arguments⟩
          ⟨some ⟨some ov⟩⟩ =
        ⟨"shell_command", cid, .Function (js (.obj (insertKey fields "timeout_ms"
          (Json.num (match b with | .Millis n => n | .Infinite => 0)))))⟩) ∧
    (ov.behavior = some b →
      (∀ fs, jp arguments ≠ some (Json.obj fs)) →
      apply_tool_hook_directive jp js ⟨"shell_command", cid, .Function arguments⟩
          ⟨some ⟨some ov⟩⟩ =
        ⟨"shell_command", cid, .Function arguments⟩) ∧
    (tn ≠ "shell_command" →
      apply_tool_hook_directive jp js ⟨tn, cid, .Function arguments⟩
          ⟨some ⟨some ov⟩⟩ = ⟨tn, cid, .Function arguments⟩) ∧
    apply_tool_hook_directive jp js ⟨tn, cid, .Custom input⟩ ⟨some ⟨some ov⟩⟩ =
      ⟨tn, cid, .Custom input⟩ ∧
    apply_tool_hook_directive jp js ⟨tn, cid, .Mcp server tool raw⟩
      ⟨some ⟨some ov⟩⟩ = ⟨tn, cid, .Mcp server tool raw⟩ ∧
    (∀ c : ToolCall, apply_tool_hook_directive jp js c ⟨none⟩ = c) ∧
    (ov.behavior = none → ∀ c : ToolCall,
      apply_tool_hook_directive jp js c ⟨some ⟨some ov⟩⟩ = c) := by
  have hts : ∀ (o : Option TimeoutBehavior) (ov' : ToolHookTimeoutOverride),
      ov'.behavior = o →
      (HookLocalShellDirective.mk (some ov')).timeout_behavior = o := by
    intro o ov' h
    simpa [HookLocalShellDirective.timeout_behavior] using h
  refine ⟨fun h => ?_, rfl, rfl, rfl, fun hb => ?_, fun hb hj => ?_,
    fun hb hj => ?_, fun ht => ?_, ?_, ?_, fun c => rfl, fun hb c => ?_⟩
  · rcases h with h | h | h | h <;>
      simp [ToolHookTimeoutOverride.behavior, h]
  · simp [apply_tool_hook_directive, hts _ _ hb]
  · cases b <;> simp [apply_tool_hook_directive, hts _ _ hb, hj]
  · simp only [apply_tool_hook_directive, hts _ _ hb]
    rcases hv : jp arguments with _ | v
    · simp
    · rcases v with _ | _ | _ | _ | _ | fs
      · simp
      · simp
      · simp
      · simp
      · simp
      · exact absurd hv (hj fs)
  · cases hov : ov.behavior <;>
      simp [apply_tool_hook_directive, hts _ _ hov, ht]
  · cases hov : ov.behavior <;>
      simp [apply_tool_hook_directive, hts _ _ hov]
  · cases hov : ov.behavior <;>
      simp [apply_tool_hook_directive, hts _ _ hov]
  · simp [apply_tool_hook_directive, hts _ _ hb]

theorem apply_tool_hook_directive_spec_witness :
    (ToolHookTimeoutOverride.Millis 123).behavior =
      some (TimeoutBehavior.Millis 123) ∧
    apply_tool_hook_directive (fun _ => none) (fun _ => "")
        ⟨"local_shell", "c7",
          .LocalShell ⟨["sleep"], none, some 50, some .UseDefault, none⟩⟩
        ⟨some ⟨some (.Millis 123)⟩⟩ =
      ⟨"local_shell", "c7",
        .LocalShell ⟨["sleep"], none, some 123, some .UseDefault, none⟩⟩ := by
  refine ⟨rfl, ?_⟩
  have h := (apply_tool_hook_directive_spec (fun _ => none) (fun _ => "")
      (.Millis 123) (.Millis 123) "local_shell" "c7" "" "" "" "" "" ""
      ⟨["sleep"], none, some 50, some .UseDefault, none⟩ [] 0).2.2.2.2.1 rfl
  simpa [apply_timeout_behavior] using h

/-- C4: a `Fatal` handler error is returned as-is from dispatch with no
model-visible output synthesized; any other handler error is converted into
`Ok` with a synthesized failure item — `CustomToolCallOutput` carrying the
error message when the payload was `Custom`, otherwise `FunctionCallOutput`
with the error message as content and `success = false` — carrying the
original `call_id`. -/
theorem dispatch_tool_call_error_handling
    (jp : String → Option Json) (js : Json → String)
    (directive : Option ToolHookDirective)
    (handler : ToolCall → Except FunctionCallError ResponseInputItem)
    (call : ToolCall) :
    (let mcall := match directive with
      | some d => apply_tool_hook_directive jp js call d
      | none => call
     (∀ m, handler mcall = .error (.Fatal m) →
        dispatch_tool_call jp js directive handler call = .error (.Fatal m)) ∧
     (∀ err, handler mcall = .error err → (∀ m, err ≠ .Fatal m) →
        dispatch_tool_call jp js directive handler call =
          .ok (if call.payload.outputs_custom then
                 .CustomToolCallOutput call.call_id err.toMessage
               else
                 .FunctionCallOutput call.call_id
                   ⟨err.toMessage, none, some false⟩))) := by
  refine ⟨fun m hm => ?_, fun err herr hnf => ?_⟩
  · cases directive with
    | none =>
      replace hm : handler call = Except.error (.Fatal m) := hm
      simp [dispatch_tool_call, hm]
    | some d =>
      replace hm : handler (apply_tool_hook_directive jp js call d) =
          Except.error (.Fatal m) := hm
      simp [dispatch_tool_call, hm]
  · cases directive with
    | none =>
      replace herr : handler call = Except.error err := herr
      cases err with
      | Fatal m => exact absurd rfl (hnf m)
      | RespondToModel m =>
        simp [dispatch_tool_call, herr, failure_response,
          FunctionCallError.toMessage]
      | MissingLocalShellCallId =>
        simp [dispatch_tool_call, herr, failure_response,
          FunctionCallError.toMessage]
    | some d =>
      replace herr : handler (apply_tool_hook_directive jp js call d) =
          Except.error err := herr
      cases err with
      | Fatal m => exact absurd rfl (hnf m)
      | RespondToModel m =>
        simp [dispatch_tool_call, herr, failure_response,
          FunctionCallError.toMessage, apply_tool_hook_directive_call_id,
          apply_tool_hook_directive_outputs_custom]
      | MissingLocalShellCallId =>
        simp [dispatch_tool_call, herr, failure_response,
          FunctionCallError.toMessage, apply_tool_hook_directive_call_id,
          apply_tool_hook_directive_outputs_custom]

theorem dispatch_tool_call_error_handling_witness :
    dispatch_tool_call (fun _ => none) (fun _ => "") none
        (fun _ => .error (.RespondToModel "boom"))
        ⟨"custom_tool", "c4", .Custom "input"⟩ =
      .ok (.CustomToolCallOutput "c4" "boom") := by
  have h := (dispatch_tool_call_error_handling (fun _ => none) (fun _ => "")
      none (fun _ => .error (.RespondToModel "boom"))
      ⟨"custom_tool", "c4", .Custom "input"⟩).2
    (.RespondToModel "boom") rfl (fun m hc => FunctionCallError.noConfusion hc)
  simpa [ToolPayload.outputs_custom, FunctionCallError.toMessage] using h

/-- C2: on a well-formed rollout with at least one tool output,
`replace_last_tool_result` rewrites only the **last** tool output item (per
`patchApply`: function outputs get `content = new_output`,
`content_items = None`, `success` untouched; custom outputs get
`output = new_output`), every other line round-trips through
parse-then-serialize unchanged, the non-empty line count is preserved, and
the returned record carries the `call_id` and kind of that item. -/
theorem replace_last_tool_result_patches_last
    (parse : String → Option RolloutLine) (ser : RolloutLine → String)
    (fileLines : List String) (new_output : String)
    (hparse : ∀ raw ∈ fileLines, isBlank raw = false → (parse raw).isSome)
    (htool : ∃ l ∈ parsedOf parse fileLines, isToolOutput l = true) :
    ∃ pre l suf pc,
      parsedOf parse fileLines = pre ++ l :: suf ∧
      isToolOutput l = true ∧
      (∀ l' ∈ suf, isToolOutput l' = false) ∧
      toolOutputInfo l = some pc ∧
      replace_last_tool_result parse ser fileLines new_output =
        (pre.map ser ++ ser (patchApply new_output l) :: suf.map ser,
          Except.ok pc) ∧
      (pre.map ser ++ ser (patchApply new_output l) :: suf.map ser).length =
        (fileLines.filter fun raw => !isBlank raw).length := by
  have hne : fileLines.all (fun raw => isBlank raw) = false := by
    obtain ⟨l, hl, _⟩ := htool
    obtain ⟨raw, hrm, hpr⟩ := List.mem_filterMap.mp hl
    obtain ⟨hrf, hnb⟩ := List.mem_filter.mp hrm
    simp only [List.all_eq_false]
    exact ⟨raw, hrf, by simpa using hnb⟩
  have hok := parseRolloutLines_ok_of_parses parse fileLines hparse
  rcases hp : patchLastToolOutput new_output (parsedOf parse fileLines)
    with _ | pr
  · exfalso
    obtain ⟨l, hl, hto⟩ := htool
    have := (patchLastToolOutput_none_iff new_output _).mp hp l hl
    simp [hto] at this
  · rcases pr with ⟨lines', pc⟩
    obtain ⟨pre, l, suf, hdec, hto, hsuf, hlines', hinfo⟩ :=
      patchLastToolOutput_some new_output _ lines' pc hp
    refine ⟨pre, l, suf, pc, hdec, hto, hsuf, hinfo, ?_, ?_⟩
    · simp [replace_last_tool_result, hne, hok, hp, hlines']
    · have hlen : (parsedOf parse fileLines).length =
          (fileLines.filter fun raw => !isBlank raw).length := by
        apply filterMap_length_of_isSome
        intro raw hrm
        obtain ⟨hrf, hnb⟩ := List.mem_filter.mp hrm
        exact hparse raw hrf (by simpa using hnb)
      rw [hdec] at hlen
      simp at hlen ⊢
      omega

theorem replace_last_tool_result_patches_last_witness :
    (∀ raw ∈ ["meta", "func"], isBlank raw = false →
        (sampleRolloutParse raw).isSome) ∧
    (∃ l ∈ parsedOf sampleRolloutParse ["meta", "func"],
        isToolOutput l = true) ∧
    ∃ pre l suf pc,
      parsedOf sampleRolloutParse ["meta", "func"] = pre ++ l :: suf ∧
      isToolOutput l = true ∧
      (∀ l' ∈ suf, isToolOutput l' = false) ∧
      toolOutputInfo l = some pc ∧
      replace_last_tool_result sampleRolloutParse sampleRolloutSer
          ["meta", "func"] "final output" =
        (pre.map sampleRolloutSer ++
          sampleRolloutSer (patchApply "final output" l) ::
            suf.map sampleRolloutSer, Except.ok pc) ∧
      (pre.map sampleRolloutSer ++
          sampleRolloutSer (patchApply "final output" l) ::
            suf.map sampleRolloutSer).length =
        (["meta", "func"].filter fun raw => !isBlank raw).length :=
  ⟨by decide, by decide,
    replace_last_tool_result_patches_last sampleRolloutParse sampleRolloutSer
      ["meta", "func"] "final output" (by decide) (by decide)⟩

/-- C6: `replace_last_tool_result` fails exactly when the file is blank
(error `rollout file is empty`), some non-empty line fails to parse (the
offending line embedded in the error), or no tool call output exists (error
`no tool call output found in rollout`). -/
theorem replace_last_tool_result_error_cases
    (parse : String → Option RolloutLine) (ser : RolloutLine → String)
    (fileLines : List String) (new_output : String) :
    ((∃ e, (replace_last_tool_result parse ser fileLines new_output).2 =
        Except.error e) ↔
      (fileLines.all (fun raw => isBlank raw) = true ∨
        (∃ raw ∈ fileLines, isBlank raw = false ∧ parse raw = none) ∨
        ((∀ raw ∈ fileLines, isBlank raw = false → (parse raw).isSome) ∧
          ∀ l ∈ parsedOf parse fileLines, isToolOutput l = false))) ∧
    (fileLines.all (fun raw => isBlank raw) = true →
      (replace_last_tool_result parse ser fileLines new_output).2 =
        .error "rollout file is empty") ∧
    (fileLines.all (fun raw => isBlank raw) = false →
      (∃ raw ∈ fileLines, isBlank raw = false ∧ parse raw = none) →
      ∃ raw ∈ fileLines, isBlank raw = false ∧ parse raw = none ∧
        (replace_last_tool_result parse ser fileLines new_output).2 =
          .error ("failed to parse rollout line as JSON; offending line: "
            ++ raw)) ∧
    (fileLines.all (fun raw => isBlank raw) = false →
      (∀ raw ∈ fileLines, isBlank raw = false → (parse raw).isSome) →
      (∀ l ∈ parsedOf parse fileLines, isToolOutput l = false) →
      (replace_last_tool_result parse ser fileLines new_output).2 =
        .error "no tool call output found in rollout; nothing to replace") := by
  have blankCase : fileLines.all (fun raw => isBlank raw) = true →
      (replace_last_tool_result parse ser fileLines new_output).2 =
        .error "rollout file is empty" := by
    intro hb
    simp [replace_last_tool_result, hb]
  have parseCase : fileLines.all (fun raw => isBlank raw) = false →
      (∃ raw ∈ fileLines, isBlank raw = false ∧ parse raw = none) →
      ∃ raw ∈ fileLines, isBlank raw = false ∧ parse raw = none ∧
        (replace_last_tool_result parse ser fileLines new_output).2 =
          .error ("failed to parse rollout line as JSON; offending line: "
            ++ raw) := by
    intro hb hbad
    rcases hres : parseRolloutLines parse fileLines with e | lines
    · obtain ⟨raw, hr, h1, h2, h3⟩ := parseRolloutLines_error parse fileLines e hres
      refine ⟨raw, hr, h1, h2, ?_⟩
      simp [replace_last_tool_result, hb, hres, h3]
    · exfalso
      obtain ⟨raw, hr, h1, h2⟩ := hbad
      have := parseRolloutLines_ok_parses parse fileLines lines hres raw hr h1
      simp [h2] at this
  have noToolCase : fileLines.all (fun raw => isBlank raw) = false →
      (∀ raw ∈ fileLines, isBlank raw = false → (parse raw).isSome) →
      (∀ l ∈ parsedOf parse fileLines, isToolOutput l = false) →
      (replace_last_tool_result parse ser fileLines new_output).2 =
        .error "no tool call output found in rollout; nothing to replace" := by
    intro hb hall hnone
    have hok := parseRolloutLines_ok_of_parses parse fileLines hall
    have hp : patchLastToolOutput new_output (parsedOf parse fileLines) = none :=
      (patchLastToolOutput_none_iff new_output _).mpr hnone
    simp [replace_last_tool_result, hb, hok, hp]
  refine ⟨⟨fun he => ?_, fun hcase => ?_⟩, blankCase, parseCase, noToolCase⟩
  · by_cases hb : fileLines.all (fun raw => isBlank raw)
    · exact Or.inl hb
    · rcases hres : parseRolloutLines parse fileLines with e' | lines
      · obtain ⟨raw, hr, h1, h2, _⟩ :=
          parseRolloutLines_error parse fileLines e' hres
        exact Or.inr (Or.inl ⟨raw, hr, h1, h2⟩)
      · refine Or.inr (Or.inr ⟨parseRolloutLines_ok_parses parse fileLines
          lines hres, ?_⟩)
        have hlines : lines = parsedOf parse fileLines := by
          have hok := parseRolloutLines_ok_of_parses parse fileLines
            (parseRolloutLines_ok_parses parse fileLines lines hres)
          rw [hres] at hok
          exact Except.ok.inj hok
        rcases hp : patchLastToolOutput new_output lines with _ | pr
        · rw [← hlines]
          exact (patchLastToolOutput_none_iff new_output lines).mp hp
        · exfalso
          obtain ⟨e, he⟩ := he
          rcases pr with ⟨lines', pc⟩
          simp [replace_last_tool_result, hb, hres, hp] at he
  · rcases hcase with hb | hbad | ⟨hall, hnone⟩
    · exact ⟨_, blankCase hb⟩
    · by_cases hb : fileLines.all (fun raw => isBlank raw)
      · exact ⟨_, blankCase hb⟩
      · obtain ⟨raw, _, _, _, hres⟩ := parseCase (by simpa using hb) hbad
        exact ⟨_, hres⟩
    · by_cases hb : fileLines.all (fun raw => isBlank raw)
      · exact ⟨_, blankCase hb⟩
      · exact ⟨_, noToolCase (by simpa using hb) hall hnone⟩

theorem replace_last_tool_result_error_cases_witness :
    ([" ", ""].all (fun raw => isBlank raw) = true) ∧
    (replace_last_tool_result sampleRolloutParse sampleRolloutSer [" ", ""]
        "x").2 = .error "rollout file is empty" :=
  ⟨by decide,
    (replace_last_tool_result_error_cases sampleRolloutParse sampleRolloutSer
      [" ", ""] "x").2.1 (by decide)⟩

/-- C9: whenever `replace_last_tool_result` returns an error, the file is
left unchanged — it is written only after every line parsed and a patch
target was found. -/
theorem replace_last_tool_result_error_keeps_file
    (parse : String → Option RolloutLine) (ser : RolloutLine → String)
    (fileLines : List String) (new_output : String) (e : String)
    (h : (replace_last_tool_result parse ser fileLines new_output).2 =
      Except.error e) :
    (replace_last_tool_result parse ser fileLines new_output).1 =
      fileLines := by
  by_cases hb : fileLines.all (fun raw => isBlank raw)
  · simp [replace_last_tool_result, hb]
  · rcases hres : parseRolloutLines parse fileLines with e' | lines
    · simp [replace_last_tool_result, hb, hres]
    · rcases hp : patchLastToolOutput new_output lines with _ | pr
      · simp [replace_last_tool_result, hb, hres, hp]
      · rcases pr with ⟨lines', pc⟩
        simp [replace_last_tool_result, hb, hres, hp] at h

theorem replace_last_tool_result_error_keeps_file_witness :
    (replace_last_tool_result (fun _ => none) (fun _ => "") ["notjson"]
        "x").2 =
      Except.error ("failed to parse rollout line as JSON; offending line: "
        ++ "notjson") ∧
    (replace_last_tool_result (fun _ => none) (fun _ => "") ["notjson"]
        "x").1 = ["notjson"] :=
  ⟨rfl, replace_last_tool_result_error_keeps_file (fun _ => none)
    (fun _ => "") ["notjson"] "x"
    ("failed to parse rollout line as JSON; offending line: " ++ "notjson")
    rfl⟩

/-- C7: `handle_connection` closes silently on an empty body (nothing
submitted, nothing written), submits `Op::DeliverPendingToolResult` and
writes back `ok` on a parsed body, and on a parse failure submits nothing
and writes nothing. -/
theorem handle_connection_spec
    (parse_request : String → Option DeliverPendingRequest) (body : String) :
    (body.data.isEmpty = true →
      handle_connection parse_request body =
        { submitted := [], written := none, failed := false }) ∧
    (∀ request, body.data.isEmpty = false →
      parse_request body = some request →
      handle_connection parse_request body =
        { submitted := [Op.DeliverPendingToolResult request.call_id
            request.output], written := some "ok", failed := false }) ∧
    (body.data.isEmpty = false → parse_request body = none →
      handle_connection parse_request body =
        { submitted := [], written := none, failed := true }) :=
  ⟨fun h => by simp [handle_connection, h],
   fun request h hp => by simp [handle_connection, h, hp],
   fun h hp => by simp [handle_connection, h, hp]⟩

theorem handle_connection_spec_witness :
    ("req".data.isEmpty = false) ∧
    samplePendingParse "req" =
      some ⟨"call-1", ⟨"done", none, some true⟩⟩ ∧
    handle_connection samplePendingParse "req" =
      { submitted := [Op.DeliverPendingToolResult "call-1"
          ⟨"done", none, some true⟩],
        written := some "ok", failed := false } :=
  ⟨by decide, rfl,
    (handle_connection_spec samplePendingParse "req").2.1
      ⟨"call-1", ⟨"done", none, some true⟩⟩ (by decide) rfl⟩

end Codex
